import Mathlib

/-!
Verification of `checker_common.py` (bad-node-detector).

Shallow embedding of the module's functions. External effects are made
explicit parameters:
  - the shell is a function from command strings to completed processes;
  - the process environment is a function from variable names to optional
    string values;
  - the two calls to the wall clock inside `expand_template` are modelled by
    a single integer `now` (seconds since epoch), and the freshly generated
    UUID's first four characters by a string parameter `guid4`;
  - reading the template file is modelled by passing the file's content.
Python exceptions are modelled by `Except PyError`; Python dicts (insertion
ordered, string keys and values after `str()` conversion) by association
lists.
-/

/-- The helm command mode enum (`HelmCommand` in the source). -/
inductive HelmCommand where
  | INSTALL
  | UNINSTALL
deriving DecidableEq, Repr

/-- Python `str()` as applied by an f-string to a `str | None` value:
`None` renders as the literal text "None". -/
def pyStr : Option String → String
  | none => "None"
  | some s => s

/-- Embedding of `generate_helm_command`.  Optional Python arguments (which
default to `None` in the source) are passed explicitly as `Option`s; the
`values` dict is an insertion-ordered association list. -/
def generate_helm_command (helm_path release_name : String)
    (chart : Option String) (values : Option (List (String × String)))
    (chart_version : Option String) (helm_install_flags : Option String)
    (helm_command_type : HelmCommand) : String :=
  let command := helm_path
  match helm_command_type with
  | HelmCommand.UNINSTALL => command ++ " uninstall " ++ release_name
  | HelmCommand.INSTALL =>
    let command := command ++ " install " ++ release_name ++ " " ++ pyStr chart
    let command :=
      match chart_version with
      | some cv => command ++ " --version " ++ cv
      | none => command
    let command :=
      match values with
      | some vs =>
        vs.foldl (fun c kv => c ++ " --set " ++ kv.1 ++ "=" ++ kv.2) command
      | none => command
    match helm_install_flags with
    | some flags => command ++ " " ++ flags
    | none => command

/-- Modelled from the spec: the block of `--set k=v` fragments, one per entry
of `values` in insertion order, as §4.2 describes it.  Used only to state the
claims against `generate_helm_command`. -/
def setFragmentsSpec : List (String × String) → String
  | [] => ""
  | kv :: rest => " --set " ++ kv.1 ++ "=" ++ kv.2 ++ setFragmentsSpec rest

/-- Result of `subprocess.run`: exit status and captured text streams
(`subprocess.CompletedProcess`). -/
structure CompletedProcess where
  returncode : Int
  stdout : String
  stderr : String
deriving DecidableEq, Repr

/-- Python exceptions this module can raise: `subprocess.CalledProcessError`
(carrying exit status and captured streams) and `ValueError` (from `int()`
inside `expand_template`). -/
inductive PyError where
  | calledProcessError (returncode : Int) (stdout stderr : String)
  | valueError (msg : String)
deriving DecidableEq, Repr

/-- Embedding of `run_command`.  The external shell is a parameter mapping a
command line to its completed process; `subprocess.run(check=check)` raises
`CalledProcessError` exactly when `check` holds and the exit status is
non-zero, and otherwise returns the completed process. -/
def run_command (shell : String → CompletedProcess) (command : String)
    (check : Bool) : Except PyError CompletedProcess :=
  let diag := shell command
  if check && diag.returncode != 0 then
    Except.error (PyError.calledProcessError diag.returncode diag.stdout
      diag.stderr)
  else
    Except.ok diag

/-- Embedding of `install_helm_release`: runs the install command through
`run_command` with `check` at its default `false`, then returns the Cleanup
Action, modelled by the uninstall command string the returned lambda
captures (the lambda's body is `run_command` on that string). -/
def install_helm_release (shell : String → CompletedProcess)
    (helm_path release_name chart : String)
    (values : Option (List (String × String)))
    (chart_version helm_install_flags : Option String) :
    Except PyError String := do
  let helm_install_command := generate_helm_command helm_path release_name
    (some chart) values chart_version helm_install_flags HelmCommand.INSTALL
  let _ ← run_command shell helm_install_command false
  let helm_uninstall_command := generate_helm_command helm_path release_name
    none none none helm_install_flags HelmCommand.UNINSTALL
  return helm_uninstall_command

/-- Embedding of `create_helm_release`: the singleton list of cleanup
functions built from `install_helm_release`. -/
def create_helm_release (shell : String → CompletedProcess)
    (helm_path release_name chart : String)
    (values : Option (List (String × String)))
    (chart_version helm_install_flags : Option String) :
    Except PyError (List String) := do
  let c ← install_helm_release shell helm_path release_name chart values
    chart_version helm_install_flags
  return [c]

/-- `K_APPLY_FORMAT % (kubectl_path, yaml_path)` from the source
(`"%s apply -f %s"`). -/
def K_APPLY_FORMAT (kubectl_path yaml_path : String) : String :=
  kubectl_path ++ " apply -f " ++ yaml_path

/-- `K_DELETE_FORMAT % (kubectl_path, yaml_path)` from the source
(`"%s delete -f %s"`). -/
def K_DELETE_FORMAT (kubectl_path yaml_path : String) : String :=
  kubectl_path ++ " delete -f " ++ yaml_path

/-- Embedding of `apply_yaml_file`: runs the apply command (default
`check=false`), then returns the Cleanup Action, modelled by the delete
command string that `delete_yaml_file` runs. -/
def apply_yaml_file (shell : String → CompletedProcess)
    (yaml_path kubectl_path : String) : Except PyError String := do
  let _ ← run_command shell (K_APPLY_FORMAT kubectl_path yaml_path) false
  return (K_DELETE_FORMAT kubectl_path yaml_path)

/-- ASCII identifier-start character of Python `string.Template`'s default
placeholder pattern `[_a-zA-Z][_a-zA-Z0-9]*`. -/
def isIdentStart (c : Char) : Bool :=
  c = '_' || ('a' ≤ c && c ≤ 'z') || ('A' ≤ c && c ≤ 'Z')

/-- ASCII identifier-continuation character of the same pattern. -/
def isIdentCont (c : Char) : Bool :=
  isIdentStart c || ('0' ≤ c && c ≤ '9')

/-- Longest identifier-continuation run at the front of a character list,
paired with the remainder (the greedy match of `[_a-zA-Z0-9]*`). -/
def spanIdent : List Char → List Char × List Char
  | [] => ([], [])
  | c :: cs =>
    if isIdentCont c then
      let p := spanIdent cs
      (c :: p.1, p.2)
    else ([], c :: cs)

/-- Lookup in an insertion-ordered association list (Python `mapping[named]`,
with `None` for a `KeyError`). -/
def dictLookup (m : List (String × String)) (k : String) : Option String :=
  match m with
  | [] => none
  | kv :: rest => if kv.1 = k then some kv.2 else dictLookup rest k

/-- One left-to-right pass of `string.Template.safe_substitute` over the
template's characters, with explicit fuel (any fuel of at least the list's
length computes the pass; see `substFuel_congr`).  Faithful to the default
template pattern: `$$` is an escaped delimiter, `$name` and `${name}` are
substituted when `name` is a key of the mapping and otherwise left verbatim,
and a `$` that starts no placeholder (the `invalid` group) is also left
verbatim, scanning resuming right after it. -/
def substFuel (m : List (String × String)) : Nat → List Char → List Char
  | 0, l => l
  | _ + 1, [] => []
  | f + 1, c :: cs =>
    if c = '$' then
      match cs with
      | [] => ['$']
      | d :: ds =>
        if d = '$' then '$' :: substFuel m f ds
        else if d = '{' then
          match ds with
          | [] => '$' :: substFuel m f cs
          | e :: es =>
            if isIdentStart e then
              match (spanIdent es).2 with
              | [] => '$' :: substFuel m f cs
              | b :: rest =>
                if b = '}' then
                  match dictLookup m (String.mk (e :: (spanIdent es).1)) with
                  | some v => v.data ++ substFuel m f rest
                  | none =>
                    '$' :: '{' :: e ::
                      ((spanIdent es).1 ++ '}' :: substFuel m f rest)
                else '$' :: substFuel m f cs
            else '$' :: substFuel m f cs
        else if isIdentStart d then
          match dictLookup m (String.mk (d :: (spanIdent ds).1)) with
          | some v => v.data ++ substFuel m f (spanIdent ds).2
          | none => '$' :: d :: ((spanIdent ds).1 ++ substFuel m f (spanIdent ds).2)
        else '$' :: substFuel m f cs
    else c :: substFuel m f cs

/-- `string.Template(s).safe_substitute(m)`. -/
def safe_substitute (m : List (String × String)) (s : String) : String :=
  String.mk (substFuel m s.data.length s.data)

/-- Python `int()` on a string, as used on `HEALTH_VALIDITY_HOURS`: an
optional sign followed by a non-empty digit run; `none` models the
`ValueError` raised on anything else.  (The model omits Python's tolerance
for surrounding whitespace and embedded underscores, which no claim
exercises.) -/
def digitsToNat? (l : List Char) : Option Nat :=
  if l = [] then none
  else
    l.foldl
      (fun acc c =>
        acc.bind fun n =>
          if c.isDigit then some (10 * n + (c.toNat - 48)) else none)
      (some 0)

/-- See `digitsToNat?`. -/
def pyInt? (s : String) : Option Int :=
  match s.data with
  | '-' :: ds => (digitsToNat? ds).map (fun n => -(n : Int))
  | '+' :: ds => (digitsToNat? ds).map (fun n => (n : Int))
  | ds => (digitsToNat? ds).map (fun n => (n : Int))

/-- The substitution dict built inside `expand_template`, given the parsed
integer value `hv` of `HEALTH_VALIDITY_HOURS` (default "24"): entries in the
source's literal order, each value after the `str()` conversion that
`safe_substitute` applies (so an unset variable fetched with no default
renders as "None"). -/
def template_vars (env : String → Option String) (now : Int)
    (guid4 : String) (hv : Int) : List (String × String) :=
  [("CHECK_TIME_EPOCH_SEC", toString now),
   ("DRY_RUN", pyStr (env "DRY_RUN")),
   ("ORIG_CHECK_TIME_EPOCH_SEC", pyStr (env "CHECK_TIME_EPOCH_SEC")),
   ("R_LEVEL", pyStr (env "R_LEVEL")),
   ("IMAGE_TAG", (env "IMAGE_TAG").getD "latest"),
   ("SHORT_GUID", (env "SHORT_GUID").getD guid4),
   ("ITERATIONS", (env "ITERATIONS").getD "5"),
   ("EXPIRY_TIME_EPOCH_SEC", toString (now - hv * 60 * 60))]

/-- Builds the substitution dict, raising `ValueError` when `int()` fails on
the `HEALTH_VALIDITY_HOURS` value. -/
def template_mapping (env : String → Option String) (now : Int)
    (guid4 : String) : Except PyError (List (String × String)) :=
  match pyInt? ((env "HEALTH_VALIDITY_HOURS").getD "24") with
  | none => Except.error (PyError.valueError "invalid literal for int")
  | some hv => Except.ok (template_vars env now guid4 hv)

/-- Embedding of `expand_template`; the template file's content is passed
directly, and the two `int(time.time())` reads are modelled by the single
instant `now`. -/
def expand_template (env : String → Option String) (now : Int)
    (guid4 : String) (yaml_template_content : String) :
    Except PyError String :=
  (template_mapping env now guid4).map
    (fun m => safe_substitute m yaml_template_content)

/-- Embedding of `create_k8s_objects`: expands the template (so a
`ValueError` there propagates), writes the expansion to a fresh temporary
file (modelled by the name `file_name`), and returns the singleton list of
cleanup functions built from `apply_yaml_file` on that file. -/
def create_k8s_objects (shell : String → CompletedProcess)
    (env : String → Option String) (now : Int) (guid4 : String)
    (yaml_template_content : String) (file_name kubectl_path : String) :
    Except PyError (List String) := do
  let _expanded ← expand_template env now guid4 yaml_template_content
  let c ← apply_yaml_file shell file_name kubectl_path
  return [c]

/-- The closed set of placeholder names recognized by `expand_template`
(the keys of its substitution dict, in source order). -/
def eightNames : List String :=
  ["CHECK_TIME_EPOCH_SEC", "DRY_RUN", "ORIG_CHECK_TIME_EPOCH_SEC",
   "R_LEVEL", "IMAGE_TAG", "SHORT_GUID", "ITERATIONS",
   "EXPIRY_TIME_EPOCH_SEC"]

/-- A valid placeholder identifier of the template pattern. -/
def isValidIdent (s : String) : Bool :=
  match s.data with
  | [] => false
  | c :: cs => isIdentStart c && cs.all isIdentCont

/-- The braced placeholder `${name}` as template text. -/
def braced (name : String) : String := "$\x7b" ++ name ++ "\x7d"

theorem foldl_set_eq (vs : List (String × String)) (init : String) :
    vs.foldl (fun c kv => c ++ " --set " ++ kv.1 ++ "=" ++ kv.2) init
      = init ++ setFragmentsSpec vs := by
  induction vs generalizing init with
  | nil => simp [setFragmentsSpec]
  | cons kv rest ih =>
    rw [List.foldl_cons, ih]
    simp [setFragmentsSpec, String.append_assoc]

/-- Claim C1: in install mode, `generate_helm_command` returns
`<helmPath> install <releaseName> <chart>` followed, in this fixed order, by
` --version <chartVersion>` when provided, one ` --set k=v` fragment per
entry of `values` in insertion order when provided, and ` <extraFlags>`
verbatim when provided. -/
theorem helm_install_command_correct (helm_path release_name chart : String)
    (values : Option (List (String × String)))
    (chart_version helm_install_flags : Option String) :
    generate_helm_command helm_path release_name (some chart) values
        chart_version helm_install_flags HelmCommand.INSTALL
      = helm_path ++ " install " ++ release_name ++ " " ++ chart
        ++ (match chart_version with
            | some cv => " --version " ++ cv
            | none => "")
        ++ (match values with
            | some vs => setFragmentsSpec vs
            | none => "")
        ++ (match helm_install_flags with
            | some flags => " " ++ flags
            | none => "") := by
  cases chart_version <;> cases values <;> cases helm_install_flags <;>
    simp only [generate_helm_command, pyStr] <;>
    first
    | (rw [foldl_set_eq]; simp [String.append_assoc])
    | simp [String.append_assoc]

/-- Claim C2 counterexample: the uninstall-mode result can contain the chart
name as a substring, because the chart name may occur inside the release
name (or the helm path).  Here chart = "chart", releaseName = "mychart". -/
theorem helm_uninstall_contains_chart_ce :
    ∃ pre suf,
      generate_helm_command "helm" "mychart" (some "chart") none none none
          HelmCommand.UNINSTALL
        = pre ++ "chart" ++ suf :=
  ⟨"helm uninstall my", "", by decide⟩

/-- Claim C2 (amended): in uninstall mode `generate_helm_command` returns
exactly `<helmPath> uninstall <releaseName>`, for every value of the chart,
values, chartVersion and extraFlags arguments: all of them are ignored, so
the chart name is never appended (it can occur in the result only as an
accidental substring of the helm path or release name). -/
theorem helm_uninstall_command_exact (helm_path release_name : String)
    (chart : Option String) (values : Option (List (String × String)))
    (chart_version helm_install_flags : Option String) :
    generate_helm_command helm_path release_name chart values chart_version
        helm_install_flags HelmCommand.UNINSTALL
      = helm_path ++ " uninstall " ++ release_name := rfl

/-- Claim C10: install mode with the chart argument omitted (`None`) does not
fail and yields `<helmPath> install <releaseName> None`, with the literal
text "None" where the chart name would appear. -/
theorem helm_install_none_chart (helm_path release_name : String) :
    generate_helm_command helm_path release_name none none none none
        HelmCommand.INSTALL
      = helm_path ++ " install " ++ release_name ++ " " ++ "None" := rfl

/-- Claim C3: with `check = true` a non-zero exit status makes `run_command`
fail with a `CalledProcessError` carrying the exit status and the captured
stdout and stderr; with `check = false` (the Python default) the call returns
the completed process unchanged, so a non-zero status is only recorded in the
result and never raised. -/
theorem run_command_check_behavior (shell : String → CompletedProcess)
    (command : String) :
    ((shell command).returncode ≠ 0 →
      run_command shell command true
        = Except.error (PyError.calledProcessError (shell command).returncode
            (shell command).stdout (shell command).stderr))
    ∧ run_command shell command false = Except.ok (shell command) := by
  constructor
  · intro h
    simp [run_command, h]
  · simp [run_command]

/-- Witness for C3 at the shell that exits 1 on every command. -/
theorem run_command_check_behavior_w :
    run_command (fun _ => ⟨1, "out", "err"⟩) "exit 1" true
        = Except.error (PyError.calledProcessError 1 "out" "err")
    ∧ run_command (fun _ => ⟨1, "out", "err"⟩) "exit 1" false
        = Except.ok ⟨1, "out", "err"⟩ :=
  ⟨(run_command_check_behavior (fun _ => ⟨1, "out", "err"⟩) "exit 1").1
      (by decide),
   (run_command_check_behavior (fun _ => ⟨1, "out", "err"⟩) "exit 1").2⟩

/-- Claim C4: the command captured by the Cleanup Action that
`install_helm_release` returns equals `generate_helm_command` at the same
helm path and release name in uninstall mode (with every optional argument
at its default) — even though the source forwards `helm_install_flags` to
the uninstall builder, which ignores them in that mode. -/
theorem cleanup_matches_uninstall_command (shell : String → CompletedProcess)
    (helm_path release_name chart : String)
    (values : Option (List (String × String)))
    (chart_version helm_install_flags : Option String) :
    install_helm_release shell helm_path release_name chart values
        chart_version helm_install_flags
      = Except.ok (generate_helm_command helm_path release_name none none
          none none HelmCommand.UNINSTALL) := by
  simp [install_helm_release, run_command, generate_helm_command]

/-- Claim C8: a non-zero exit of the forward install command of
`install_helm_release`, or of the apply command of `apply_yaml_file`, is not
surfaced to the caller: both functions still return normally, with their
Cleanup Action produced unconditionally. -/
theorem provisioning_failures_swallowed (shell : String → CompletedProcess)
    (helm_path release_name chart : String)
    (values : Option (List (String × String)))
    (chart_version helm_install_flags : Option String)
    (yaml_path kubectl_path : String)
    (hinstall : (shell (generate_helm_command helm_path release_name
        (some chart) values chart_version helm_install_flags
        HelmCommand.INSTALL)).returncode ≠ 0)
    (happly : (shell (K_APPLY_FORMAT kubectl_path yaml_path)).returncode
        ≠ 0) :
    (∃ c, install_helm_release shell helm_path release_name chart values
        chart_version helm_install_flags = Except.ok c)
    ∧ (∃ c, apply_yaml_file shell yaml_path kubectl_path = Except.ok c) := by
  refine ⟨⟨generate_helm_command helm_path release_name none none none
      helm_install_flags HelmCommand.UNINSTALL, ?_⟩,
    ⟨K_DELETE_FORMAT kubectl_path yaml_path, ?_⟩⟩ <;>
  simp [install_helm_release, apply_yaml_file, run_command]

/-- Witness for C8 at the shell that exits 1 on every command. -/
theorem provisioning_failures_swallowed_w :
    (∃ c, install_helm_release (fun _ => ⟨1, "", ""⟩) "helm" "rel" "chart"
        none none none = Except.ok c)
    ∧ (∃ c, apply_yaml_file (fun _ => ⟨1, "", ""⟩) "f.yaml" "kubectl"
        = Except.ok c) :=
  provisioning_failures_swallowed (fun _ => ⟨1, "", ""⟩) "helm" "rel" "chart"
    none none none "f.yaml" "kubectl" (by decide) (by decide)

theorem spanIdent_snd_le (l : List Char) : (spanIdent l).2.length ≤ l.length := by
  induction l with
  | nil => simp [spanIdent]
  | cons c cs ih =>
    simp only [spanIdent]
    by_cases h : isIdentCont c
    · simp only [h, if_true, List.length_cons]
      omega
    · simp [h]


theorem spanIdent_all_append (a : List Char) (b : Char) (r : List Char)
    (ha : ∀ c ∈ a, isIdentCont c = true) (hb : isIdentCont b = false) :
    spanIdent (a ++ b :: r) = (a, b :: r) := by
  induction a with
  | nil => simp [spanIdent, hb]
  | cons c cs ih =>
    have hc : isIdentCont c = true := ha c (List.mem_cons_self c cs)
    simp [spanIdent, hc, ih (fun x hx => ha x (List.mem_cons_of_mem c hx))]

theorem substFuel_congr (m : List (String × String)) :
    ∀ (f₁ : Nat) (l : List Char) (f₂ : Nat),
      l.length ≤ f₁ → l.length ≤ f₂ → substFuel m f₁ l = substFuel m f₂ l := by
  intro f₁
  induction f₁ with
  | zero =>
    intro l f₂ h1 _
    have hl : l = [] := List.eq_nil_of_length_eq_zero (Nat.le_zero.mp h1)
    subst hl
    cases f₂ <;> rfl
  | succ a ih =>
    intro l f₂ h1 h2
    cases l with
    | nil => cases f₂ <;> rfl
    | cons c cs =>
      cases f₂ with
      | zero => simp at h2
      | succ b =>
        have hcs1 : cs.length ≤ a := by simp [List.length_cons] at h1; omega
        have hcs2 : cs.length ≤ b := by simp [List.length_cons] at h2; omega
        by_cases hc : c = '$'
        · subst hc
          cases cs with
          | nil => rfl
          | cons d ds =>
            have hds1 : ds.length ≤ a := by
              simp [List.length_cons] at hcs1; omega
            have hds2 : ds.length ≤ b := by
              simp [List.length_cons] at hcs2; omega
            by_cases hd : d = '$'
            · subst hd
              simp [substFuel, ih ds b hds1 hds2]
            · by_cases hbr : d = '{'
              · subst hbr
                cases ds with
                | nil =>
                  simp [substFuel, ih ['{'] b hcs1 hcs2]
                | cons e es =>
                  by_cases he : isIdentStart e = true
                  · cases hrem : (spanIdent es).2 with
                    | nil =>
                      simp [substFuel, he, hrem,
                        ih ('{' :: e :: es) b hcs1 hcs2]
                    | cons bb rest =>
                      have hsl := spanIdent_snd_le es
                      rw [hrem] at hsl
                      have hes1 : es.length ≤ a := by
                        simp [List.length_cons] at hds1; omega
                      have hrest1 : rest.length ≤ a := by
                        simp [List.length_cons] at hsl; omega
                      have hrest2 : rest.length ≤ b := by
                        simp [List.length_cons] at hds2 hsl; omega
                      by_cases hbb : bb = '}'
                      · subst hbb
                        cases hlk :
                            dictLookup m (String.mk (e :: (spanIdent es).1)) with
                        | some v =>
                          simp [substFuel, he, hrem, hlk,
                            ih rest b hrest1 hrest2]
                        | none =>
                          simp [substFuel, he, hrem, hlk,
                            ih rest b hrest1 hrest2]
                      · simp [substFuel, he, hrem, hbb,
                          ih ('{' :: e :: es) b hcs1 hcs2]
                  · simp [substFuel, he, ih ('{' :: e :: es) b hcs1 hcs2]
              · by_cases hdst : isIdentStart d = true
                · have hsl := spanIdent_snd_le ds
                  have hsp1 : (spanIdent ds).2.length ≤ a := by omega
                  have hsp2 : (spanIdent ds).2.length ≤ b := by omega
                  cases hlk :
                      dictLookup m (String.mk (d :: (spanIdent ds).1)) with
                  | some v =>
                    simp [substFuel, hd, hbr, hdst, hlk,
                      ih (spanIdent ds).2 b hsp1 hsp2]
                  | none =>
                    simp [substFuel, hd, hbr, hdst, hlk,
                      ih (spanIdent ds).2 b hsp1 hsp2]
                · simp [substFuel, hd, hbr, hdst, ih (d :: ds) b hcs1 hcs2]
        · simp [substFuel, hc, ih cs b hcs1 hcs2]

theorem substFuel_copy_literal (m : List (String × String)) (p : List Char) :
    ∀ (l : List Char) (f g : Nat), '$' ∉ p → p.length + l.length ≤ f →
      l.length ≤ g → substFuel m f (p ++ l) = p ++ substFuel m g l := by
  induction p with
  | nil =>
    intro l f g _ h1 h2
    simp only [List.nil_append]
    exact substFuel_congr m f l g (by omega) h2
  | cons c p' ih =>
    intro l f g hp h1 h2
    have hc : ¬ c = '$' := fun h => hp (by rw [← h]; exact List.mem_cons_self c p')
    cases f with
    | zero => simp only [List.length_cons] at h1; omega
    | succ f' =>
      have hp' : '$' ∉ p' := fun hx => hp (List.mem_cons_of_mem c hx)
      have h1' : p'.length + l.length ≤ f' := by
        simp only [List.length_cons] at h1; omega
      simp [substFuel, hc, ih l f' g hp' h1' h2]

theorem substFuel_braced (m : List (String × String)) (e : Char)
    (tl rest : List Char) (f g : Nat) (he : isIdentStart e = true)
    (htl : ∀ c ∈ tl, isIdentCont c = true)
    (hf : tl.length + rest.length + 4 ≤ f) (hg : rest.length ≤ g) :
    substFuel m f ('$' :: '{' :: e :: (tl ++ '}' :: rest))
      = match dictLookup m (String.mk (e :: tl)) with
        | some v => v.data ++ substFuel m g rest
        | none => '$' :: '{' :: e :: (tl ++ '}' :: substFuel m g rest) := by
  cases f with
  | zero => omega
  | succ f' =>
    have hsp : spanIdent (tl ++ '}' :: rest) = (tl, '}' :: rest) :=
      spanIdent_all_append tl '}' rest htl (by decide)
    have hrec : substFuel m f' rest = substFuel m g rest := by
      apply substFuel_congr m f' rest g _ hg
      omega
    cases hlk : dictLookup m (String.mk (e :: tl)) with
    | some v => simp [substFuel, he, hsp, hlk, hrec]
    | none => simp [substFuel, he, hsp, hlk, hrec]

theorem dictLookup_eq_none (m : List (String × String)) (k : String)
    (h : k ∉ m.map Prod.fst) : dictLookup m k = none := by
  induction m with
  | nil => rfl
  | cons kv rest ih =>
    simp only [List.map_cons, List.mem_cons, not_or] at h
    obtain ⟨h1, h2⟩ := h
    have h1' : ¬ kv.1 = k := fun hh => h1 hh.symm
    simp [dictLookup, h1', ih h2]

theorem braced_data (name : String) :
    (braced name).data = '$' :: '{' :: (name.data ++ ['}']) := by
  have h1 : ("$\x7b" : String).data = ['$', '{'] := rfl
  have h2 : ("\x7d" : String).data = ['}'] := rfl
  simp [braced, String.data_append, h1, h2]

theorem safe_substitute_at_braced (m : List (String × String))
    (name pre rest : String) (hname : isValidIdent name = true)
    (hpre : '$' ∉ pre.data) :
    safe_substitute m (pre ++ braced name ++ rest)
      = match dictLookup m name with
        | some v => pre ++ v ++ safe_substitute m rest
        | none => pre ++ braced name ++ safe_substitute m rest := by
  obtain ⟨e, tl, hed⟩ : ∃ e tl, name.data = e :: tl := by
    cases hnd : name.data with
    | nil => simp [isValidIdent, hnd] at hname
    | cons a b => exact ⟨a, b, rfl⟩
  have hparts : isIdentStart e = true ∧ tl.all isIdentCont = true := by
    have h := hname
    simp only [isValidIdent, hed, Bool.and_eq_true] at h
    exact h
  have htl : ∀ c ∈ tl, isIdentCont c = true := by
    have h := hparts.2
    simpa [List.all_eq_true] using h
  have hn : String.mk (e :: tl) = name := by rw [← hed]
  have hmk : ∀ X : List Char, (String.mk X).data = X := fun _ => rfl
  have hdata : (pre ++ braced name ++ rest).data
      = pre.data ++ ('$' :: '{' :: e :: (tl ++ '}' :: rest.data)) := by
    simp [String.data_append, braced_data, hed, List.append_assoc]
  have hstep : substFuel m (pre ++ braced name ++ rest).data.length
        (pre ++ braced name ++ rest).data
      = pre.data ++ substFuel m
          ('$' :: '{' :: e :: (tl ++ '}' :: rest.data)).length
          ('$' :: '{' :: e :: (tl ++ '}' :: rest.data)) := by
    rw [hdata]
    exact substFuel_copy_literal m pre.data _ _ _ hpre
      (by simp [List.length_append]) (le_refl _)
  have hbr := substFuel_braced m e tl rest.data
    ('$' :: '{' :: e :: (tl ++ '}' :: rest.data)).length rest.data.length
    hparts.1 htl
    (by simp only [List.length_cons, List.length_append]; omega) (le_refl _)
  rw [hn] at hbr
  cases hlk : dictLookup m name with
  | some v =>
    rw [hlk] at hbr
    apply String.ext
    simp only [safe_substitute, hmk]
    rw [hstep, hbr]
    simp [String.data_append, List.append_assoc]
  | none =>
    rw [hlk] at hbr
    apply String.ext
    simp only [safe_substitute, hmk]
    rw [hstep, hbr]
    simp [String.data_append, braced_data, hed, List.append_assoc]

theorem template_vars_keys (env : String → Option String) (now : Int)
    (guid4 : String) (hv : Int) :
    (template_vars env now guid4 hv).map Prod.fst = eightNames := rfl

theorem dictLookup_template_dry_run (env : String → Option String)
    (now : Int) (guid4 : String) (hv : Int) :
    dictLookup (template_vars env now guid4 hv) "DRY_RUN"
      = some (pyStr (env "DRY_RUN")) := by
  simp [template_vars, dictLookup]

theorem dictLookup_template_expiry (env : String → Option String)
    (now : Int) (guid4 : String) (hv : Int) :
    dictLookup (template_vars env now guid4 hv) "EXPIRY_TIME_EPOCH_SEC"
      = some (toString (now - hv * 60 * 60)) := by
  simp [template_vars, dictLookup]

/-- Claim C5: `expand_template` substitutes only placeholders drawn from the
fixed closed set of eight recognized names (the keys of its substitution
dict); a braced placeholder whose valid identifier is not in that set is left
verbatim, character for character at its position, and never causes an error
(the result is still `Except.ok`). -/
theorem unrecognized_placeholder_verbatim (env : String → Option String)
    (now : Int) (guid4 : String) (hv : Int) (name pre rest : String)
    (hparse : pyInt? ((env "HEALTH_VALIDITY_HOURS").getD "24") = some hv)
    (hname : isValidIdent name = true)
    (hmem : name ∉ eightNames)
    (hpre : '$' ∉ pre.data) :
    (template_vars env now guid4 hv).map Prod.fst = eightNames
    ∧ expand_template env now guid4 (pre ++ braced name ++ rest)
        = Except.ok (pre ++ braced name
            ++ safe_substitute (template_vars env now guid4 hv) rest) := by
  have hnone : dictLookup (template_vars env now guid4 hv) name = none :=
    dictLookup_eq_none _ name hmem
  refine ⟨rfl, ?_⟩
  simp [expand_template, template_mapping, Except.map, hparse,
    safe_substitute_at_braced (template_vars env now guid4 hv) name pre rest
      hname hpre,
    hnone]

/-- Witness for C5 at the empty environment and the foreign placeholder
name FOO. -/
theorem unrecognized_placeholder_verbatim_w :
    (template_vars (fun _ => none) 0 "abcd" 24).map Prod.fst = eightNames
    ∧ expand_template (fun _ => none) 0 "abcd" ("a" ++ braced "FOO" ++ "b")
        = Except.ok ("a" ++ braced "FOO"
            ++ safe_substitute (template_vars (fun _ => none) 0 "abcd" 24)
                "b") :=
  unrecognized_placeholder_verbatim (fun _ => none) 0 "abcd" 24 "FOO" "a" "b"
    (by decide) (by decide) (by decide) (by decide)

/-- Claim C6 counterexample: with environment variable `DRY_RUN` absent,
`expand_template` replaces the placeholder with the four-character text
"None" (Python's `str(None)`), which is not an empty value. -/
theorem dry_run_absent_not_empty_ce :
    expand_template (fun _ => none) 0 "abcd" (braced "DRY_RUN")
      = Except.ok "None" ∧ ("None" : String) ≠ "" :=
  ⟨rfl, by decide⟩

/-- Claim C6 (amended): when `DRY_RUN` is absent the placeholder
`${DRY_RUN}` is replaced by the literal text "None" — the string rendering
of the unset marker, not an empty value; when `DRY_RUN` is set the
placeholder is replaced by its value. -/
theorem dry_run_substitution (env : String → Option String) (now : Int)
    (guid4 : String) (hv : Int) (pre rest : String)
    (hparse : pyInt? ((env "HEALTH_VALIDITY_HOURS").getD "24") = some hv)
    (hpre : '$' ∉ pre.data) :
    (env "DRY_RUN" = none →
      expand_template env now guid4 (pre ++ braced "DRY_RUN" ++ rest)
        = Except.ok (pre ++ "None"
            ++ safe_substitute (template_vars env now guid4 hv) rest))
    ∧ (∀ v, env "DRY_RUN" = some v →
      expand_template env now guid4 (pre ++ braced "DRY_RUN" ++ rest)
        = Except.ok (pre ++ v
            ++ safe_substitute (template_vars env now guid4 hv) rest)) := by
  have hlk := dictLookup_template_dry_run env now guid4 hv
  constructor
  · intro h0
    rw [h0] at hlk
    simp [expand_template, template_mapping, Except.map, hparse,
      safe_substitute_at_braced (template_vars env now guid4 hv) "DRY_RUN"
        pre rest (by decide) hpre,
      hlk, pyStr]
  · intro v h0
    rw [h0] at hlk
    simp [expand_template, template_mapping, Except.map, hparse,
      safe_substitute_at_braced (template_vars env now guid4 hv) "DRY_RUN"
        pre rest (by decide) hpre,
      hlk, pyStr]

/-- Witness for C6's amended theorem at the empty environment. -/
theorem dry_run_substitution_w :
    expand_template (fun _ => none) 0 "abcd" ("a" ++ braced "DRY_RUN" ++ "b")
      = Except.ok ("a" ++ "None"
          ++ safe_substitute (template_vars (fun _ => none) 0 "abcd" 24)
              "b") :=
  (dry_run_substitution (fun _ => none) 0 "abcd" 24 "a" "b" (by decide)
      (by decide)).1 (by decide)

/-- Claim C7: `${EXPIRY_TIME_EPOCH_SEC}` is substituted with the current
epoch seconds minus `hv * 3600`, where `hv` is the integer value of
environment variable `HEALTH_VALIDITY_HOURS`, and `hv` is 24 when that
variable is absent. -/
theorem expiry_time_substitution (env : String → Option String) (now : Int)
    (guid4 : String) (hv : Int) (pre rest : String)
    (hparse : pyInt? ((env "HEALTH_VALIDITY_HOURS").getD "24") = some hv)
    (hpre : '$' ∉ pre.data) :
    expand_template env now guid4
        (pre ++ braced "EXPIRY_TIME_EPOCH_SEC" ++ rest)
      = Except.ok (pre ++ toString (now - hv * 3600)
          ++ safe_substitute (template_vars env now guid4 hv) rest)
    ∧ (env "HEALTH_VALIDITY_HOURS" = none → hv = 24) := by
  have hlk := dictLookup_template_expiry env now guid4 hv
  have harith : now - hv * 60 * 60 = now - hv * 3600 := by ring_nf
  constructor
  · rw [harith] at hlk
    simp [expand_template, template_mapping, Except.map, hparse,
      safe_substitute_at_braced (template_vars env now guid4 hv)
        "EXPIRY_TIME_EPOCH_SEC" pre rest (by decide) hpre,
      hlk]
  · intro h0
    rw [h0] at hparse
    have h24 : pyInt? ((none : Option String).getD "24") = some 24 := by
      decide
    exact (Option.some_inj.mp (h24.symm.trans hparse)).symm

/-- Witness for C7 at the empty environment (default 24 hours). -/
theorem expiry_time_substitution_w :
    expand_template (fun _ => none) 0 "abcd"
        ("" ++ braced "EXPIRY_TIME_EPOCH_SEC" ++ "")
      = Except.ok ("" ++ toString ((0 : Int) - 24 * 3600)
          ++ safe_substitute (template_vars (fun _ => none) 0 "abcd" 24)
              "") :=
  (expiry_time_substitution (fun _ => none) 0 "abcd" 24 "" "" (by decide)
      (by decide)).1

/-- Claim C9: every provisioning call that performs a forward action returns
exactly one Cleanup Action: `create_helm_release` and `create_k8s_objects`
return a one-element list of cleanup functions, and `install_helm_release`
and `apply_yaml_file` each return exactly one cleanup function — for every
shell, including failing ones (the hypothesis only requires the
`HEALTH_VALIDITY_HOURS` value to parse, since otherwise `create_k8s_objects`
raises before its forward action). -/
theorem one_cleanup_per_forward_action (shell : String → CompletedProcess)
    (env : String → Option String) (now : Int) (guid4 : String) (hv : Int)
    (helm_path release_name chart : String)
    (values : Option (List (String × String)))
    (chart_version helm_install_flags : Option String)
    (yaml_template_content file_name kubectl_path : String)
    (hparse : pyInt? ((env "HEALTH_VALIDITY_HOURS").getD "24") = some hv) :
    create_helm_release shell helm_path release_name chart values
        chart_version helm_install_flags
      = Except.ok [generate_helm_command helm_path release_name none none
          none none HelmCommand.UNINSTALL]
    ∧ create_k8s_objects shell env now guid4 yaml_template_content file_name
        kubectl_path
      = Except.ok [K_DELETE_FORMAT kubectl_path file_name]
    ∧ (∃ c, install_helm_release shell helm_path release_name chart values
        chart_version helm_install_flags = Except.ok c)
    ∧ (∃ c, apply_yaml_file shell file_name kubectl_path = Except.ok c) := by
  refine ⟨?_, ?_,
    ⟨generate_helm_command helm_path release_name none none none
      helm_install_flags HelmCommand.UNINSTALL, ?_⟩,
    ⟨K_DELETE_FORMAT kubectl_path file_name, ?_⟩⟩ <;>
  simp [create_helm_release, create_k8s_objects, install_helm_release,
    apply_yaml_file, expand_template, template_mapping, Except.map,
    Bind.bind, Except.bind, Pure.pure, Except.pure, hparse, run_command,
    generate_helm_command]

/-- Witness for C9 at a concrete shell and the empty environment. -/
theorem one_cleanup_per_forward_action_w :
    create_helm_release (fun _ => ⟨0, "", ""⟩) "helm" "rel" "chart" none
        none none
      = Except.ok [generate_helm_command "helm" "rel" none none none none
          HelmCommand.UNINSTALL]
    ∧ create_k8s_objects (fun _ => ⟨0, "", ""⟩) (fun _ => none) 0 "abcd"
        "tmpl" "f.yaml" "kubectl"
      = Except.ok [K_DELETE_FORMAT "kubectl" "f.yaml"]
    ∧ (∃ c, install_helm_release (fun _ => ⟨0, "", ""⟩) "helm" "rel" "chart"
        none none none = Except.ok c)
    ∧ (∃ c, apply_yaml_file (fun _ => ⟨0, "", ""⟩) "f.yaml" "kubectl"
        = Except.ok c) :=
  one_cleanup_per_forward_action (fun _ => ⟨0, "", ""⟩) (fun _ => none) 0
    "abcd" 24 "helm" "rel" "chart" none none none "tmpl" "f.yaml" "kubectl"
    (by decide)
